import Mathlib

/-!
Verification of the nydus image-builder core (`src/bin/nydus-image/core/context.rs`
and `src/bin/nydus-image/merge.rs`) against its natural-language specification.

The Rust code is shallowly embedded: machine integers become `Nat` (all the
quantities involved stay far below their machine bounds, and where a bound
matters — the 24-bit chunk-index limit, the 8-bit blob-index limit — the
source's explicit check is carried over literally), fallible functions return
`Except String`, and a Rust `assert!`/panic is modelled as an `Except.error`.
External collaborators (SHA-256 hashing, the RAFS tree, the storage backend,
the real filesystem) are modelled by small abstract states; the parts of the
code that decide the claims are translated verbatim.
-/

namespace Nydus

/-! ## ConversionType (context.rs lines 49-123) -/

inductive ConversionType where
  | DirectoryToRafs
  | DirectoryToStargz
  | DirectoryToTargz
  | EStargzToRafs
  | EStargzToRef
  | EStargzIndexToRef
  | TargzToRafs
  | TargzToStargz
  | TargzToRef
  | TarToStargz
  | TarToRafs
  | TarToRef
deriving DecidableEq, Repr

/-- `impl FromStr for ConversionType` (context.rs lines 71-92).
The `Err` case of the Rust `Result` is rendered as `none`. -/
def ConversionType.from_str (s : String) : Option ConversionType :=
  match s with
  | "dir-rafs" => some .DirectoryToRafs
  | "dir-stargz" => some .DirectoryToStargz
  | "dir-targz" => some .DirectoryToTargz
  | "estargz-rafs" => some .EStargzToRafs
  | "estargz-ref" => some .EStargzToRef
  | "estargztoc-ref" => some .EStargzIndexToRef
  | "targz-rafs" => some .TargzToRafs
  | "targz-stargz" => some .TargzToStargz
  | "targz-ref" => some .TargzToRef
  | "tar-rafs" => some .TarToRafs
  | "tar-stargz" => some .TarToStargz
  -- kept for backward compatibility
  | "directory" => some .DirectoryToRafs
  | "stargz_index" => some .EStargzIndexToRef
  | _ => none

/-- `impl fmt::Display for ConversionType` (context.rs lines 94-111).
Note: the source really writes `targz-ref` for `TargzToStargz`. -/
def ConversionType.to_string : ConversionType → String
  | .DirectoryToRafs => "dir-rafs"
  | .DirectoryToStargz => "dir-stargz"
  | .DirectoryToTargz => "dir-targz"
  | .EStargzToRafs => "estargz-rafs"
  | .EStargzToRef => "estargz-ref"
  | .EStargzIndexToRef => "estargztoc-ref"
  | .TargzToRafs => "targz-rafs"
  | .TargzToStargz => "targz-ref"
  | .TargzToRef => "targz-ref"
  | .TarToRafs => "tar-rafs"
  | .TarToStargz => "tar-stargz"
  | .TarToRef => "tar-ref"

/-- `ConversionType::is_to_ref` (context.rs lines 114-123). -/
def ConversionType.is_to_ref : ConversionType → Bool
  | .EStargzToRef | .EStargzIndexToRef | .TargzToRef | .TarToRef => true
  | _ => false

/-! ## Constants -/

/-- `RAFS_DEFAULT_CHUNK_SIZE` (1 MiB). -/
def RAFS_DEFAULT_CHUNK_SIZE : Nat := 0x100000

/-- `EROFS_BLOCK_SIZE` (4096). -/
def EROFS_BLOCK_SIZE : Nat := 4096

/-- `EROFS_INODE_SLOT_SIZE` (32). -/
def EROFS_INODE_SLOT_SIZE : Nat := 32

/-- `nydus_utils::div_round_up`. -/
def div_round_up (n d : Nat) : Nat := (n + d - 1) / d

/-- `nydus_utils::round_down_4k` (`x & !4095`). -/
def round_down_4k (x : Nat) : Nat := x - x % 4096

/-! ## Prefetch policy and chunk source

`PrefetchPolicy` lives in `core/prefetch.rs` (not under `src/`); only its
three variants and the comparison with `Blob` are needed here. `ChunkSource`
lives in `core/node.rs`. -/

inductive PrefetchPolicy where
  | None
  | Fs
  | Blob
deriving DecidableEq, Repr

structure Prefetch where
  policy : PrefetchPolicy
deriving DecidableEq, Repr

inductive ChunkSource where
  | Build
  | Dict
  | Parent
deriving DecidableEq, Repr

inductive RafsVersion where
  | V5
  | V6
deriving DecidableEq, Repr

/-! ## BuildContext (context.rs lines 985-1091), restricted to the fields the
verified operations read. -/

structure BuildContext where
  blob_id : String
  blob_offset : Nat
  chunk_size : Nat
  fs_version : RafsVersion
  conversion_type : ConversionType
  prefetch : Prefetch
  /-- `ctx.configuration.internal.blob_accessible()` read by the merger. -/
  blob_accessible : Bool
deriving DecidableEq, Repr

def BuildContext.default : BuildContext :=
  { blob_id := ""
    blob_offset := 0
    chunk_size := RAFS_DEFAULT_CHUNK_SIZE
    fs_version := .V6
    conversion_type := .DirectoryToRafs
    prefetch := { policy := .Fs }
    blob_accessible := false }

/-! ## BlobContext (context.rs lines 357-661)

Fields holding external objects (the running `Sha256`, the on-disk chunk-meta
arrays, the ToC entry list) are out-of-scope collaborators and are omitted;
every field read or written by the operations under verification is kept.
The `blob_meta_digest`/`blob_meta_size`/`blob_toc_digest`/`blob_toc_size`
fields are the ones the merger writes its per-layer overrides into. -/

structure BlobContext where
  blob_id : String
  blob_prefetch_size : Nat
  blob_meta_info_enabled : Bool
  compressed_blob_size : Nat
  uncompressed_blob_size : Nat
  compressed_offset : Nat
  uncompressed_offset : Nat
  chunk_count : Nat
  chunk_size : Nat
  chunk_source : ChunkSource
  blob_meta_digest : String
  blob_meta_size : Nat
  blob_toc_digest : String
  blob_toc_size : Nat
deriving DecidableEq, Repr

/-- `BlobContext::new` (context.rs lines 406-464); the feature-bit bookkeeping
only touches the omitted on-disk meta header. -/
def BlobContext.new (blob_id : String) (blob_offset : Nat) : BlobContext :=
  { blob_id
    blob_prefetch_size := 0
    blob_meta_info_enabled := false
    compressed_blob_size := 0
    uncompressed_blob_size := 0
    compressed_offset := blob_offset
    uncompressed_offset := 0
    chunk_count := 0
    chunk_size := RAFS_DEFAULT_CHUNK_SIZE
    chunk_source := .Build
    blob_meta_digest := ""
    blob_meta_size := 0
    blob_toc_digest := ""
    blob_toc_size := 0 }

/-- The slice of `BlobInfo` (storage crate) read during parent/dict import. -/
structure BlobInfo where
  blob_id : String
  blob_index : Nat
  chunk_size : Nat
  chunk_count : Nat
  compressed_size : Nat
  uncompressed_size : Nat
  prefetch_size : Nat
  /-- `blob.has_feature(BlobFeatures::SEPARATE)`. -/
  separate : Bool
deriving DecidableEq, Repr

/-- `BlobContext::from` (context.rs lines 466-559) for sources without the
`INLINED_META` feature: the fixup branch re-fetches data through the storage
backend, an out-of-scope collaborator, and is not taken here. -/
def BlobContext.fromBlobInfo (blob : BlobInfo) (chunk_source : ChunkSource) : BlobContext :=
  let blob_ctx := BlobContext.new blob.blob_id 0
  { blob_ctx with
    blob_prefetch_size := blob.prefetch_size
    chunk_count := blob.chunk_count
    uncompressed_blob_size := blob.uncompressed_size
    compressed_blob_size := blob.compressed_size
    chunk_size := blob.chunk_size
    chunk_source := chunk_source }

/-- `BlobContext::set_chunk_size` (context.rs lines 561-563). -/
def BlobContext.set_chunk_size (b : BlobContext) (chunk_size : Nat) : BlobContext :=
  { b with chunk_size }

/-- `BlobContext::set_blob_prefetch_size` (context.rs lines 566-574). -/
def BlobContext.set_blob_prefetch_size (b : BlobContext) (ctx : BuildContext) : BlobContext :=
  if ((b.compressed_blob_size > 0
        ∨ (ctx.conversion_type = .EStargzIndexToRef ∧ ¬ b.blob_id = ""))
      ∧ ¬ ctx.prefetch.policy = .Blob) then
    { b with blob_prefetch_size := 0 }
  else
    b

/-- `BlobContext::set_meta_info_enabled` (context.rs lines 576-578). -/
def BlobContext.set_meta_info_enabled (b : BlobContext) (enable : Bool) : BlobContext :=
  { b with blob_meta_info_enabled := enable }

/-- `BlobContext::alloc_chunk_index` (context.rs lines 619-632). The mutable
borrow is made explicit: the second component is the blob context after the
call; on error it is returned unchanged. -/
def BlobContext.alloc_chunk_index (b : BlobContext) : Except String Nat × BlobContext :=
  let index := b.chunk_count
  -- Rafs v6 only supports 24 bit chunk id.
  if index ≥ 0xffffff then
    (.error "the number of chunks in blob exceeds the u32 limit", b)
  else
    (.ok index, { b with chunk_count := b.chunk_count + 1 })

/-- Iterate `alloc_chunk_index`, keeping the state produced by each call. -/
def BlobContext.allocRepeat : Nat → BlobContext → BlobContext
  | 0, b => b
  | n + 1, b => BlobContext.allocRepeat n (b.alloc_chunk_index).2

/-! ## BlobManager (context.rs lines 663-883)

The global chunk dictionary behind `Arc<dyn ChunkDict>` exposes exactly two
operations to this code: `get_blobs()` and `set_real_blob_idx(internal, real)`.
It is modelled by the list of its blobs plus the association list of
internal-index-to-real-index pairs recorded by `set_real_blob_idx` (a later
call for the same internal index shadows an earlier one, hence the prepend). -/

structure BlobManager where
  blobs : List BlobContext
  current_blob_index : Option Nat
  /-- `self.global_chunk_dict.get_blobs()`. -/
  global_chunk_dict : List BlobInfo
  /-- Pairs recorded by `global_chunk_dict.set_real_blob_idx`. -/
  dict_real_idx : List (Nat × Nat)
deriving DecidableEq, Repr

/-- `BlobManager::new` (context.rs lines 682-689). -/
def BlobManager.new : BlobManager :=
  { blobs := []
    current_blob_index := none
    global_chunk_dict := []
    dict_real_idx := [] }

/-- `BlobManager::set_chunk_dict` (context.rs lines 726-728). -/
def BlobManager.set_chunk_dict (m : BlobManager) (dict : List BlobInfo) : BlobManager :=
  { m with global_chunk_dict := dict }

/-- `BlobManager::new_blob_ctx` (context.rs lines 691-703). -/
def BlobManager.new_blob_ctx (ctx : BuildContext) : BlobContext :=
  ((BlobContext.new ctx.blob_id ctx.blob_offset).set_chunk_size
      ctx.chunk_size).set_meta_info_enabled (ctx.fs_version = .V6)

/-- `BlobManager::alloc_index` (context.rs lines 737-742): `u8::try_from`
succeeds exactly when the length fits in 8 bits. -/
def BlobManager.alloc_index (m : BlobManager) : Except String Nat :=
  -- Rafs v6 only supports 256 blobs.
  if m.blobs.length ≤ 255 then .ok m.blobs.length else .error "too many blobs"

/-- `BlobManager::add` (context.rs lines 747-749). -/
def BlobManager.add (m : BlobManager) (blob_ctx : BlobContext) : BlobManager :=
  { m with blobs := m.blobs ++ [blob_ctx] }

/-- `BlobManager::len` (context.rs lines 751-753). -/
def BlobManager.len (m : BlobManager) : Nat := m.blobs.length

/-- First index whose blob id matches, as the loop in
`BlobManager::get_blob_idx_by_id` computes it. -/
def firstIdxOfId : List BlobContext → String → Option Nat
  | [], _ => none
  | b :: rest, id =>
    if b.blob_id = id then some 0 else (firstIdxOfId rest id).map (· + 1)

/-- `BlobManager::get_blob_idx_by_id` (context.rs lines 772-779). -/
def BlobManager.get_blob_idx_by_id (m : BlobManager) (id : String) : Option Nat :=
  firstIdxOfId m.blobs id

/-- `BlobManager::get_blob_ids` (context.rs lines 781-783). -/
def BlobManager.get_blob_ids (m : BlobManager) : List String :=
  m.blobs.map (·.blob_id)

/-- `BlobManager::get_current_blob` (context.rs lines 718-724); the Rust
`self.blobs[idx]` panics when the index is out of bounds, rendered here as
`none` of the inner lookup kept separate from the outer `Option`. -/
def BlobManager.get_current_blob (m : BlobManager) : Option (Nat × BlobContext) :=
  match m.current_blob_index with
  | some idx => (m.blobs.get? idx).map (fun b => (idx, b))
  | none => none

/-- `BlobManager::get_or_create_current_blob` (context.rs lines 705-716).
The final `.unwrap()` on `get_current_blob` panics when `current_blob_index`
is stale (out of bounds); the panic is modelled as an error. -/
def BlobManager.get_or_create_current_blob (m : BlobManager) (ctx : BuildContext) :
    Except String (Nat × BlobManager) :=
  match m.current_blob_index with
  | some _ =>
    match m.get_current_blob with
    | some (idx, _) => .ok (idx, m)
    | none => .error "panic: current blob index out of bounds"
  | none => do
    let blob_ctx := BlobManager.new_blob_ctx ctx
    let idx ← m.alloc_index
    let m := { m with current_blob_index := some idx }
    let m := m.add blob_ctx
    match m.get_current_blob with
    | some (idx, _) => .ok (idx, m)
    | none => .error "panic: current blob index out of bounds"

/-- `BlobManager::extend_from_blob_table` (context.rs lines 786-804). The
`assert!(self.blobs.is_empty())` on the `None` branch is modelled as an
error. -/
def BlobManager.extend_from_blob_table (m : BlobManager)
    (blob_table : List BlobInfo) : Except String BlobManager :=
  let blobs := blob_table.map (fun blob => BlobContext.fromBlobInfo blob .Parent)
  match m.current_blob_index with
  | some curr =>
    .ok { m with
          current_blob_index := some (curr + blobs.length)
          blobs := blobs ++ m.blobs }
  | none =>
    if m.blobs.isEmpty then
      .ok { m with blobs := blobs }
    else
      .error "panic: assertion failed: blobs must be empty"

/-- The loop body of `BlobManager::extend_from_chunk_dict`
(context.rs lines 811-828), folded over the dictionary blobs. -/
def extendFromChunkDictGo : List BlobInfo → BlobManager → Except String BlobManager
  | [], m => .ok m
  | blob :: rest, m =>
    match m.get_blob_idx_by_id blob.blob_id with
    | some real_idx =>
      extendFromChunkDictGo rest
        { m with dict_real_idx := (blob.blob_index, real_idx) :: m.dict_real_idx }
    | none => do
      let idx ← m.alloc_index
      let ctx := BlobContext.fromBlobInfo blob .Dict
      let m := m.add ctx
      extendFromChunkDictGo rest
        { m with dict_real_idx := (blob.blob_index, idx) :: m.dict_real_idx }

/-- `BlobManager::extend_from_chunk_dict` (context.rs lines 811-828). -/
def BlobManager.extend_from_chunk_dict (m : BlobManager) : Except String BlobManager :=
  extendFromChunkDictGo m.global_chunk_dict m

/-! ## BootstrapContext (context.rs lines 885-959)

Only the block-tail allocator state is modelled: the node vector, hardlink
map and writer do not interact with it. `v6_available_blocks` is a vector of
`EROFS_BLOCK_SIZE / EROFS_INODE_SLOT_SIZE = 128` FIFO queues; `pop_front`
takes the list head, `push_back` appends. -/

structure BootstrapContext where
  offset : Nat
  v6_available_blocks : List (List Nat)
deriving DecidableEq, Repr

/-- The allocator part of `BootstrapContext::new` (context.rs lines 900-919). -/
def BootstrapContext.new : BootstrapContext :=
  { offset := EROFS_BLOCK_SIZE
    v6_available_blocks :=
      List.replicate (EROFS_BLOCK_SIZE / EROFS_INODE_SLOT_SIZE) [] }

/-- `BootstrapContext::align_offset` (context.rs lines 921-925). -/
def BootstrapContext.align_offset (bc : BootstrapContext) (align_size : Nat) :
    BootstrapContext :=
  if bc.offset % align_size > 0 then
    { bc with offset := div_round_up bc.offset align_size * align_size }
  else
    bc

/-- `BootstrapContext::append_available_block` (context.rs lines 952-958). -/
def BootstrapContext.append_available_block (bc : BootstrapContext) (offset : Nat) :
    BootstrapContext :=
  if offset % EROFS_BLOCK_SIZE ≠ 0 then
    let avail := EROFS_BLOCK_SIZE - offset % EROFS_BLOCK_SIZE
    let idx := avail / EROFS_INODE_SLOT_SIZE
    { bc with
      v6_available_blocks :=
        bc.v6_available_blocks.set idx
          ((bc.v6_available_blocks.getD idx []) ++ [round_down_4k offset]) }
  else
    bc

/-- The `for idx in min_idx..max_idx` loop of
`BootstrapContext::allocate_available_block` (context.rs lines 939-947);
`max_idx = div_round_up(EROFS_BLOCK_SIZE, EROFS_INODE_SLOT_SIZE) = 128`. -/
def allocFrom (min_idx : Nat) (idx : Nat) (bc : BootstrapContext) :
    Nat × BootstrapContext :=
  if h : idx < 128 then
    match bc.v6_available_blocks.getD idx [] with
    | [] => allocFrom min_idx (idx + 1) bc
    | off :: rest =>
      let offset := off + (EROFS_BLOCK_SIZE - idx * EROFS_INODE_SLOT_SIZE)
      let bc := { bc with v6_available_blocks := bc.v6_available_blocks.set idx rest }
      let bc := bc.append_available_block (offset + min_idx * EROFS_INODE_SLOT_SIZE)
      (offset, bc)
  else
    (0, bc)
termination_by 128 - idx

/-- `BootstrapContext::allocate_available_block` (context.rs lines 931-949). -/
def BootstrapContext.allocate_available_block (bc : BootstrapContext) (size : Nat) :
    Nat × BootstrapContext :=
  if size ≥ EROFS_BLOCK_SIZE then
    (0, bc)
  else
    let min_idx := div_round_up size EROFS_INODE_SLOT_SIZE
    allocFrom min_idx min_idx bc

/-! ## ArtifactStorage and ArtifactWriter (context.rs lines 125-355)

The local filesystem is an external collaborator; it is modelled as an
association list from paths to file kinds, with `remove_file` and `rename`
acting on it. The writer's buffered file is a pair of byte lists (buffered
tail, flushed prefix). -/

inductive ArtifactStorage where
  | SingleFile (p : String)
  | FileDir (p : String)
deriving DecidableEq, Repr

inductive FileKind where
  | regular
  | directory
  | other
deriving DecidableEq, Repr

/-- Abstract filesystem state: which paths exist, and what kind of node each
is. -/
abbrev FsState := List (String × FileKind)

/-- `path.exists()` / `s.metadata().is_ok()`. -/
def FsState.pathExists (fs : FsState) (p : String) : Bool :=
  (List.lookup p fs).isSome

/-- `s.metadata()?.is_file()`. -/
def FsState.isFile (fs : FsState) (p : String) : Bool :=
  List.lookup p fs = some .regular

/-- `std::fs::remove_file`. -/
def FsState.remove_file (fs : FsState) (p : String) : FsState :=
  List.filter (fun e => ¬ e.1 = p) fs

/-- `std::fs::rename`: the node at `src` now appears at `dst`. -/
def FsState.rename (fs : FsState) (src dst : String) : FsState :=
  match List.lookup src fs with
  | some k => (dst, k) :: FsState.remove_file (FsState.remove_file fs src) dst
  | none => fs

/-- The state of an `ArtifactWriter` (context.rs lines 225-233) visible to
`finalize`: the buffered bytes not yet flushed, the bytes already in the
file, the position cursor, the storage, and the temp-file path when the
storage is a directory. -/
structure ArtifactWriter where
  pos : Nat
  buffered : List Nat
  flushed : List Nat
  storage : ArtifactStorage
  tmp_file : Option String
deriving DecidableEq, Repr

/-- `BufWriter::flush`. -/
def ArtifactWriter.flush (w : ArtifactWriter) : ArtifactWriter :=
  { w with buffered := [], flushed := w.flushed ++ w.buffered }

/-- `ArtifactWriter::finalize` (context.rs lines 327-354). Returns the writer
and filesystem after the call. -/
def ArtifactWriter.finalize (w : ArtifactWriter) (name : Option String)
    (fs : FsState) : ArtifactWriter × FsState :=
  let w := w.flush
  match name with
  | some n =>
    match w.storage with
    | .FileDir s =>
      let path := s ++ "/" ++ n
      if fs.pathExists path then
        (w, fs)
      else
        match w.tmp_file with
        | some tmp => (w, fs.rename tmp path)
        | none => (w, fs)
    | .SingleFile _ => (w, fs)
  | none =>
    match w.storage with
    | .SingleFile s =>
      if fs.isFile s then (w, fs.remove_file s) else (w, fs)
    | .FileDir _ => (w, fs)

/-! ## BuildOutput (context.rs lines 1123-1170) -/

structure BuildOutput where
  blobs : List String
  blob_size : Option Nat
  bootstrap_path : Option String
deriving DecidableEq, Repr

/-- `BuildOutput::new` (context.rs lines 1151-1170). -/
def BuildOutput.new (blob_mgr : BlobManager)
    (bootstrap_storage : Option ArtifactStorage) : BuildOutput :=
  { blobs := blob_mgr.get_blob_ids
    blob_size := blob_mgr.blobs.getLast?.map (·.compressed_blob_size)
    bootstrap_path :=
      match bootstrap_storage with
      | some (.SingleFile p) => some p
      | _ => none }

/-! ## Merger (merge.rs)

The per-layer bootstraps are loaded through the RAFS superblock loader, an
external collaborator; a loaded layer is modelled by what the merge loop
reads from it: its blob table, its directory walk (the nodes in walk order)
and the tar-blob id derived from its bootstrap path
(`BlobInfo::get_blob_id_from_meta_path`). The RAFS `Tree` and its `apply`
are likewise external to `src/`; since the merge claims concern only which
nodes are applied and in which order, the tree is modelled by the free
record of those calls. -/

inductive Overlay where
  | Lower
  | UpperAddition
deriving DecidableEq, Repr

/-- A node materialized by `MetadataTreeBuilder::parse_node`, restricted to
what the merge loop reads and writes: the OCI whiteout classification
(`node.whiteout_type(WhiteoutSpec::Oci).is_some()`), the chunks' blob
indices, the layer index and the overlay tag. -/
structure NodeM where
  name : String
  whiteout_oci : Bool
  chunks : List Nat
  layer_idx : Nat
  overlay : Overlay
deriving DecidableEq, Repr

/-- A per-layer bootstrap as seen by the merge loop. -/
structure LayerM where
  blobs : List BlobInfo
  nodes : List NodeM
  tar_blob_id : String
deriving DecidableEq, Repr

inductive Tree where
  | from_bootstrap (nodes : List NodeM)
  | apply (t : Tree) (n : NodeM)
deriving DecidableEq, Repr

/-- `for node in &nodes { tree.apply(node, true, WhiteoutSpec::Oci)?; }`
(merge.rs lines 236-238). -/
def Tree.applyAll (t : Tree) (ns : List NodeM) : Tree :=
  ns.foldl Tree.apply t

/-- `chunk.set_blob_index(blob_idx_map[origin_blob_index])` applied to each
chunk in turn (merge.rs lines 214-218); the Rust indexing panics on a bad
index. -/
def remapChunks (blob_idx_map : List Nat) : List Nat → Except String (List Nat)
  | [] => .ok []
  | i :: rest =>
    match blob_idx_map.get? i with
    | some j => do
      let js ← remapChunks blob_idx_map rest
      .ok (j :: js)
    | none => .error "panic: chunk blob index out of bounds"

/-- The body of the walk closure (merge.rs lines 207-226): remap each chunk's
blob index through `blob_idx_map`, stamp the layer index (`u16::try_from`
fails above 65535) and tag the node as an upper addition. -/
def processNode (blob_idx_map : List Nat) (layer_idx : Nat) (n : NodeM) :
    Except String NodeM := do
  let chunks ← remapChunks blob_idx_map n.chunks
  if layer_idx ≤ 0xffff then
    .ok { n with chunks := chunks, layer_idx := layer_idx, overlay := .UpperAddition }
  else
    .error "too many layers, limited to u16 max"

/-- The per-layer node batch (merge.rs lines 227-232): whiteouts are inserted
at the head of the vector, other nodes are pushed at the tail, in walk
order. -/
def buildLayerBatch (blob_idx_map : List Nat) (layer_idx : Nat) :
    List NodeM → List NodeM → Except String (List NodeM)
  | [], acc => .ok acc
  | n :: rest, acc => do
    let node ← processNode blob_idx_map layer_idx n
    if node.whiteout_oci then
      buildLayerBatch blob_idx_map layer_idx rest (node :: acc)
    else
      buildLayerBatch blob_idx_map layer_idx rest (acc ++ [node])

/-- Application of one non-first layer to the accumulated tree (merge.rs
lines 202-238): build the batch, then apply its nodes in batch order. -/
def applyLayerToTree (tree : Tree) (blob_idx_map : List Nat) (layer_idx : Nat)
    (walk : List NodeM) : Except String Tree := do
  let batch ← buildLayerBatch blob_idx_map layer_idx walk []
  pure (Tree.applyAll tree batch)

/-- `digests.get(idx)` guarded lookup of `Merger::get_digest_from_list` /
`Merger::get_size_from_list` (merge.rs lines 29-49). -/
def getFromList {α : Type} (xs : Option (List α)) (idx : Nat) :
    Except String (Option α) :=
  match xs with
  | some xs =>
    match xs.get? idx with
    | some v => .ok (some v)
    | none => .error "unmatched index"
  | none => .ok none

/-- The `ensure!` on chunk sizes (merge.rs lines 138-148): the first imported
blob fixes the expected chunk size, later blobs must match it. -/
def checkChunkSize : Option Nat → Nat → Except String Nat
  | some cs, c =>
    if cs = c then .ok cs
    else .error "can not merge bootstraps with inconsistent chunk size"
  | none, c => .ok c

/-- The upper-blob handling (merge.rs lines 149-187): a blob not in the
chunk-dict set is the layer's own blob — at most one per layer — whose id is
rewritten and whose per-layer overrides are applied. -/
def mergeUpperBlob (ctx : BuildContext) (chunk_dict_blobs : List String)
    (tar_blob_id : String) (blob_digests : Option (List String))
    (blob_sizes : Option (List Nat)) (blob_toc_digests : Option (List String))
    (blob_toc_sizes : Option (List Nat)) (layer_idx : Nat) (blob : BlobInfo)
    (blob_ctx : BlobContext) (parent_blob_added : Bool) :
    Except String (BlobContext × Bool) :=
  if ¬ chunk_dict_blobs.contains blob.blob_id then do
    if parent_blob_added then
      .error "invalid per layer bootstrap, having multiple associated data blobs"
    let blob_ctx :=
      if ctx.blob_accessible then
        { blob_ctx with blob_id := blob.blob_id }
      else
        { blob_ctx with blob_id := tar_blob_id }
    let blob_ctx ←
      match ← getFromList blob_digests layer_idx with
      | some digest =>
        if blob.separate then
          pure { blob_ctx with blob_meta_digest := digest }
        else
          pure { blob_ctx with blob_id := digest }
      | none => pure blob_ctx
    let blob_ctx ←
      match ← getFromList blob_sizes layer_idx with
      | some size =>
        if blob.separate then
          pure { blob_ctx with blob_meta_size := size }
        else
          pure { blob_ctx with compressed_blob_size := size }
      | none => pure blob_ctx
    let blob_ctx ←
      match ← getFromList blob_toc_digests layer_idx with
      | some digest => pure { blob_ctx with blob_toc_digest := digest }
      | none => pure blob_ctx
    let blob_ctx ←
      match ← getFromList blob_toc_sizes layer_idx with
      | some size => pure { blob_ctx with blob_toc_size := size }
      | none => pure blob_ctx
    pure (blob_ctx, true)
  else
    pure (blob_ctx, parent_blob_added)

/-- The blob deduplication against the manager (merge.rs lines 189-199): one
`blob_idx_map` entry is pushed for every matching manager index; a blob with
no match is added at the next free index. -/
def dedupBlob (blob_mgr : BlobManager) (blob_idx_map : List Nat)
    (blob_ctx : BlobContext) : BlobManager × List Nat :=
  let matchIdxs :=
    (blob_mgr.blobs.enum.filter (fun p => p.2.blob_id = blob_ctx.blob_id)).map (·.1)
  if matchIdxs.isEmpty then
    (blob_mgr.add blob_ctx, blob_idx_map ++ [blob_mgr.len])
  else
    (blob_mgr, blob_idx_map ++ matchIdxs)

/-- The per-blob body of the merge loop (merge.rs lines 136-200), folded over
one layer's blob table. The state is (expected chunk size, blob manager,
`parent_blob_added`, `blob_idx_map`). -/
def mergeLayerBlobs (ctx : BuildContext) (chunk_dict_blobs : List String)
    (tar_blob_id : String) (blob_digests : Option (List String))
    (blob_sizes : Option (List Nat)) (blob_toc_digests : Option (List String))
    (blob_toc_sizes : Option (List Nat)) (layer_idx : Nat) :
    List BlobInfo → Option Nat × BlobManager × Bool × List Nat →
    Except String (Option Nat × BlobManager × Bool × List Nat)
  | [], st => .ok st
  | blob :: rest, (chunk_size?, blob_mgr, parent_blob_added, blob_idx_map) => do
    let blob_ctx := BlobContext.fromBlobInfo blob .Parent
    let chunk_size ← checkChunkSize chunk_size? blob_ctx.chunk_size
    let upper ←
      mergeUpperBlob ctx chunk_dict_blobs tar_blob_id blob_digests blob_sizes
        blob_toc_digests blob_toc_sizes layer_idx blob blob_ctx
        parent_blob_added
    mergeLayerBlobs ctx chunk_dict_blobs tar_blob_id blob_digests blob_sizes
      blob_toc_digests blob_toc_sizes layer_idx rest
      (some chunk_size, (dedupBlob blob_mgr blob_idx_map upper.1).1, upper.2,
        (dedupBlob blob_mgr blob_idx_map upper.1).2)

/-- The per-layer tree update (merge.rs lines 202-242): apply the batch to
the accumulated tree, or build the tree from the first layer's bootstrap. -/
def mergeLayerTree (tree? : Option Tree) (blob_idx_map : List Nat)
    (layer_idx : Nat) (walk : List NodeM) : Except String (Option Tree) :=
  match tree? with
  | some tree => do
    let tree ← applyLayerToTree tree blob_idx_map layer_idx walk
    pure (some tree)
  | none => pure (some (Tree.from_bootstrap walk))

/-- The per-layer loop of `Merger::merge` (merge.rs lines 122-243), with the
layer index threaded explicitly instead of `enumerate()`. The state is
(expected chunk size, accumulated tree, blob manager); the blob-loop state
components are (chunk size, manager, parent_blob_added, blob_idx_map). -/
def mergeLayers (ctx : BuildContext) (chunk_dict_blobs : List String)
    (blob_digests : Option (List String)) (blob_sizes : Option (List Nat))
    (blob_toc_digests : Option (List String)) (blob_toc_sizes : Option (List Nat))
    (layer_idx : Nat) :
    List LayerM → Option Nat × Option Tree × BlobManager →
    Except String (Option Nat × Option Tree × BlobManager)
  | [], st => .ok st
  | layer :: rest, (chunk_size?, tree?, blob_mgr) => do
    let st ←
      mergeLayerBlobs ctx chunk_dict_blobs layer.tar_blob_id blob_digests
        blob_sizes blob_toc_digests blob_toc_sizes layer_idx layer.blobs
        (chunk_size?, blob_mgr, false, [])
    let tree? ← mergeLayerTree tree? st.2.2.2 layer_idx layer.nodes
    mergeLayers ctx chunk_dict_blobs blob_digests blob_sizes blob_toc_digests
      blob_toc_sizes (layer_idx + 1) rest (st.1, tree?, st.2.1)

/-- The `ensure!` checks on override-array lengths (merge.rs lines 71-102):
an absent array passes, a present one must match the source count. -/
def ensureLen {α : Type} (xs : Option (List α)) (n : Nat) (msg : String) :
    Except String Unit :=
  match xs with
  | some l => if l.length = n then .ok () else .error msg
  | none => .ok ()

/-- `Merger::merge` (merge.rs lines 57-261). Loading the chunk-dict bootstrap
and the per-layer bootstraps, the config compatibility checks, and
`Bootstrap::build`/`Bootstrap::dump` are external; the dict is given by its
blob-id set and each source by its loaded content. -/
def Merger.merge (ctx : BuildContext) (sources : List LayerM)
    (blob_digests : Option (List String)) (blob_sizes : Option (List Nat))
    (blob_toc_digests : Option (List String)) (blob_toc_sizes : Option (List Nat))
    (target : ArtifactStorage) (chunk_dict : Option (List String)) :
    Except String BuildOutput :=
  if sources.isEmpty then
    .error "source bootstrap list is empty , at least one bootstrap is required"
  else do
    let _ ← ensureLen blob_digests sources.length
      "number of blob digest entries doesn't match number of sources"
    let _ ← ensureLen blob_toc_digests sources.length
      "number of toc digest entries doesn't match number of sources"
    let _ ← ensureLen blob_sizes sources.length
      "number of blob size entries doesn't match number of sources"
    let _ ← ensureLen blob_toc_sizes sources.length
      "number of toc size entries doesn't match number of sources"
    let chunk_dict_blobs := chunk_dict.getD []
    let st ←
      mergeLayers ctx chunk_dict_blobs blob_digests blob_sizes blob_toc_digests
        blob_toc_sizes 0 sources (none, none, BlobManager.new)
    match st.2.1 with
    | none => .error "panic: tree.unwrap() on empty source list"
    | some _ =>
      -- EROFS bootstrap building and dumping are external collaborators.
      let bootstrap_storage := some target
      .ok (BuildOutput.new st.2.2 bootstrap_storage)

/-- The node transformation applied along the walk, kept in walk order
(the `mapM` view of the walk closure, merge.rs lines 207-226), used to state
how `buildLayerBatch` reorders the walk. -/
def processWalk (blob_idx_map : List Nat) (layer_idx : Nat) :
    List NodeM → Except String (List NodeM)
  | [] => .ok []
  | n :: rest => do
    let node ← processNode blob_idx_map layer_idx n
    let nodes ← processWalk blob_idx_map layer_idx rest
    .ok (node :: nodes)

/-- The import sequence of spec scenario S6: `extend_from_blob_table T` on an
empty manager whose global chunk dictionary is `D`, then
`extend_from_chunk_dict`. -/
def extendBoth (T D : List BlobInfo) : Except String BlobManager := do
  let m ← (BlobManager.new.set_chunk_dict D).extend_from_blob_table T
  m.extend_from_chunk_dict

/-! Concrete fixtures used by counterexamples and witnesses. -/

/-- A `BlobInfo` with the given id, dictionary-internal index and chunk
size. -/
def mkInfo (id : String) (blob_index : Nat) (chunk_size : Nat) : BlobInfo :=
  { blob_id := id
    blob_index := blob_index
    chunk_size := chunk_size
    chunk_count := 1
    compressed_size := 10
    uncompressed_size := 20
    prefetch_size := 0
    separate := false }

def infoA : BlobInfo := mkInfo "a" 0 0x100000

def infoB : BlobInfo := mkInfo "b" 0 0x100000

def infoC : BlobInfo := mkInfo "c" 1 0x100000

/-- A non-whiteout node with one chunk. -/
def nodeNW : NodeM :=
  { name := "a", whiteout_oci := false, chunks := [0], layer_idx := 0,
    overlay := .Lower }

/-- An OCI whiteout node. -/
def nodeW : NodeM :=
  { name := ".wh.b", whiteout_oci := true, chunks := [], layer_idx := 0,
    overlay := .Lower }

/-- A bootstrap allocator state with one block queued that has 10 free slots
(320 bytes) at its tail. -/
def bcW : BootstrapContext :=
  { offset := EROFS_BLOCK_SIZE
    v6_available_blocks := (List.replicate 128 ([] : List Nat)).set 10 [8192] }

/-- A one-blob layer for the S4 scenario, with the given chunk size, one
walk node and no whiteouts. -/
def mkLayer (id : String) (chunk_size : Nat) : LayerM :=
  { blobs := [mkInfo id 0 chunk_size]
    nodes := [nodeNW]
    tar_blob_id := "tar-" ++ id }

/-! # Theorems -/

/-! ## C1: ConversionType round-trip -/

/-- C1 (code_bug): the claimed round-trip `from_str(x).to_string() == x` holds
for ten of the twelve canonical strings and the legacy aliases parse to the
claimed variants, but the code breaks it twice: displaying the parse of
`targz-stargz` yields `targz-ref` (the `Display` arm for `TargzToStargz` is a
copy-paste slip), and `tar-ref` — which `Display` emits for `TarToRef` — is
not accepted by `from_str` at all. -/
theorem conversion_type_roundtrip_audit :
    (ConversionType.from_str "targz-stargz").map ConversionType.to_string
      = some "targz-ref"
    ∧ ConversionType.from_str "tar-ref" = none
    ∧ (ConversionType.from_str "dir-rafs").map ConversionType.to_string
      = some "dir-rafs"
    ∧ (ConversionType.from_str "dir-stargz").map ConversionType.to_string
      = some "dir-stargz"
    ∧ (ConversionType.from_str "dir-targz").map ConversionType.to_string
      = some "dir-targz"
    ∧ (ConversionType.from_str "estargz-rafs").map ConversionType.to_string
      = some "estargz-rafs"
    ∧ (ConversionType.from_str "estargz-ref").map ConversionType.to_string
      = some "estargz-ref"
    ∧ (ConversionType.from_str "estargztoc-ref").map ConversionType.to_string
      = some "estargztoc-ref"
    ∧ (ConversionType.from_str "targz-rafs").map ConversionType.to_string
      = some "targz-rafs"
    ∧ (ConversionType.from_str "targz-ref").map ConversionType.to_string
      = some "targz-ref"
    ∧ (ConversionType.from_str "tar-rafs").map ConversionType.to_string
      = some "tar-rafs"
    ∧ (ConversionType.from_str "tar-stargz").map ConversionType.to_string
      = some "tar-stargz"
    ∧ ConversionType.from_str "directory" = ConversionType.from_str "dir-rafs"
    ∧ ConversionType.from_str "stargz_index"
      = ConversionType.from_str "estargztoc-ref" := by
  decide

/-! ## C4: alloc_chunk_index -/

/-- Running `alloc_chunk_index` repeatedly below the 24-bit limit just adds
to the chunk count. -/
theorem allocRepeat_below_limit (n : Nat) :
    ∀ b : BlobContext, b.chunk_count + n ≤ 0xffffff →
      BlobContext.allocRepeat n b = { b with chunk_count := b.chunk_count + n } := by
  induction n with
  | zero =>
    intro b _
    simp [BlobContext.allocRepeat]
  | succ n ih =>
    intro b h
    have hc : ¬ b.chunk_count ≥ 0xffffff := by omega
    rw [BlobContext.allocRepeat, BlobContext.alloc_chunk_index]
    simp only [hc, if_false]
    rw [ih { b with chunk_count := b.chunk_count + 1 } (by simp; omega)]
    simp
    omega

/-- C4 (confirmed): `alloc_chunk_index` returns the current chunk count and
increments it; at the 24-bit limit it fails leaving the count unchanged.
Starting from a fresh blob, the call after k successful calls returns index
k for every k < 2^24 − 1 (in particular call number 2^24 − 1 returns
0xfffffe), and call number 2^24 fails. -/
theorem alloc_chunk_index_spec :
    (∀ b : BlobContext, b.chunk_count < 0xffffff →
      b.alloc_chunk_index
        = (.ok b.chunk_count, { b with chunk_count := b.chunk_count + 1 }))
    ∧ (∀ b : BlobContext, 0xffffff ≤ b.chunk_count →
      b.alloc_chunk_index
        = (.error "the number of chunks in blob exceeds the u32 limit", b))
    ∧ (∀ k : Nat, k < 0xffffff →
      ((BlobContext.allocRepeat k (BlobContext.new "" 0)).alloc_chunk_index).1
        = .ok k)
    ∧ ((BlobContext.allocRepeat 0xfffffe (BlobContext.new "" 0)).alloc_chunk_index).1
      = .ok 0xfffffe
    ∧ ((BlobContext.allocRepeat 0xffffff (BlobContext.new "" 0)).alloc_chunk_index).1
      = .error "the number of chunks in blob exceeds the u32 limit" := by
  have hok : ∀ b : BlobContext, b.chunk_count < 0xffffff →
      b.alloc_chunk_index
        = (.ok b.chunk_count, { b with chunk_count := b.chunk_count + 1 }) := by
    intro b h
    rw [BlobContext.alloc_chunk_index]
    simp only [ge_iff_le, Nat.not_le.mpr h, if_false]
  have herr : ∀ b : BlobContext, 0xffffff ≤ b.chunk_count →
      b.alloc_chunk_index
        = (.error "the number of chunks in blob exceeds the u32 limit", b) := by
    intro b h
    rw [BlobContext.alloc_chunk_index]
    simp only [ge_iff_le, h, if_true]
  have hfresh : ∀ k : Nat, k ≤ 0xffffff →
      BlobContext.allocRepeat k (BlobContext.new "" 0)
        = { BlobContext.new "" 0 with chunk_count := k } := by
    intro k hk
    have := allocRepeat_below_limit k (BlobContext.new "" 0) (by simp [BlobContext.new]; omega)
    simpa [BlobContext.new] using this
  refine ⟨hok, herr, ?_, ?_, ?_⟩
  · intro k hk
    rw [hfresh k (Nat.le_of_lt hk), hok _ (by simpa using hk)]
  · rw [hfresh 0xfffffe (by omega), hok _ (by simp)]
  · rw [hfresh 0xffffff (by omega), herr _ (by simp)]

/-- C4 witness: concrete instantiation of `alloc_chunk_index_spec`. -/
theorem alloc_chunk_index_spec_witness :
    (BlobContext.new "" 0).alloc_chunk_index
      = (.ok (BlobContext.new "" 0).chunk_count,
          { BlobContext.new "" 0 with
            chunk_count := (BlobContext.new "" 0).chunk_count + 1 }) :=
  alloc_chunk_index_spec.1 (BlobContext.new "" 0) (by decide)

/-! ## C5: extend_from_blob_table -/

/-- C5 (confirmed): with a current blob index i, `extend_from_blob_table`
prepends one `Parent`-sourced context per table entry, in table order, and
shifts the current index by the number prepended; with no current index it
requires an empty manager — the blob list then becomes exactly the imported
contexts — and errors (Rust: panics) on a non-empty one. -/
theorem extend_from_blob_table_spec :
    (∀ (m : BlobManager) (i : Nat) (T : List BlobInfo),
      m.current_blob_index = some i →
      m.extend_from_blob_table T
        = .ok { m with
                current_blob_index := some (i + T.length)
                blobs := T.map (fun b => BlobContext.fromBlobInfo b .Parent)
                  ++ m.blobs })
    ∧ (∀ (m : BlobManager) (T : List BlobInfo),
      m.current_blob_index = none → m.blobs = [] →
      m.extend_from_blob_table T
        = .ok { m with
                blobs := T.map (fun b => BlobContext.fromBlobInfo b .Parent) })
    ∧ (∀ (m : BlobManager) (T : List BlobInfo),
      m.current_blob_index = none → ¬ m.blobs = [] →
      ∃ e, m.extend_from_blob_table T = .error e) := by
  refine ⟨?_, ?_, ?_⟩
  · intro m i T h
    rw [BlobManager.extend_from_blob_table, h]
    simp
  · intro m T h he
    rw [BlobManager.extend_from_blob_table, h]
    simp [he]
  · intro m T h he
    rw [BlobManager.extend_from_blob_table, h]
    simp [List.isEmpty_iff, he]

/-- C5 witness: a one-blob manager extended by a one-entry table. -/
theorem extend_from_blob_table_spec_witness :
    ({ BlobManager.new with
        blobs := [BlobContext.new "x" 0]
        current_blob_index := some 0 } : BlobManager).extend_from_blob_table
        [{ blob_id := "p", blob_index := 0, chunk_size := 0x100000,
           chunk_count := 1, compressed_size := 10, uncompressed_size := 20,
           prefetch_size := 0, separate := false }]
      = .ok { BlobManager.new with
              current_blob_index := some (0 + 1)
              blobs := [BlobContext.fromBlobInfo
                  { blob_id := "p", blob_index := 0, chunk_size := 0x100000,
                    chunk_count := 1, compressed_size := 10,
                    uncompressed_size := 20, prefetch_size := 0,
                    separate := false } .Parent,
                BlobContext.new "x" 0] } :=
  extend_from_blob_table_spec.1
    { BlobManager.new with
      blobs := [BlobContext.new "x" 0]
      current_blob_index := some 0 }
    0 _ rfl

/-! ## C8: set_blob_prefetch_size -/

/-- C8 (counterexample): a blob with no content whose imported prefetch size
is 5, under a build whose prefetch policy is not prefetch-by-blob — an
"every other case" of the claim — keeps prefetch size 5 instead of the
claimed 0: the code only zeroes the field when the blob has content. -/
theorem set_blob_prefetch_size_counterexample :
    ¬ BuildContext.default.prefetch.policy = PrefetchPolicy.Blob
    ∧ ({ BlobContext.new "b" 0 with
          blob_prefetch_size := 5 } : BlobContext).set_blob_prefetch_size
        BuildContext.default
      = { BlobContext.new "b" 0 with blob_prefetch_size := 5 }
    ∧ ¬ (({ BlobContext.new "b" 0 with
          blob_prefetch_size := 5 } : BlobContext).set_blob_prefetch_size
        BuildContext.default).blob_prefetch_size = 0 := by
  decide

/-- C8 (amended): `set_blob_prefetch_size` zeroes the advertised prefetch
size iff the blob has content (compressed_blob_size > 0, or conversion type
EStargzIndexToRef with a non-empty blob id) AND the policy is not
prefetch-by-blob; in every other case the blob context is left unchanged. -/
theorem set_blob_prefetch_size_amended :
    ∀ (b : BlobContext) (ctx : BuildContext),
      (((b.compressed_blob_size > 0
          ∨ (ctx.conversion_type = .EStargzIndexToRef ∧ ¬ b.blob_id = ""))
        ∧ ¬ ctx.prefetch.policy = .Blob) →
        (b.set_blob_prefetch_size ctx).blob_prefetch_size = 0)
      ∧ (¬ ((b.compressed_blob_size > 0
          ∨ (ctx.conversion_type = .EStargzIndexToRef ∧ ¬ b.blob_id = ""))
        ∧ ¬ ctx.prefetch.policy = .Blob) →
        b.set_blob_prefetch_size ctx = b) := by
  intro b ctx
  constructor
  · intro h
    rw [BlobContext.set_blob_prefetch_size, if_pos h]
  · intro h
    rw [BlobContext.set_blob_prefetch_size, if_neg h]

/-- C8 witness: a blob with content under a non-blob prefetch policy is
zeroed. -/
theorem set_blob_prefetch_size_amended_witness :
    (({ BlobContext.new "b" 0 with
        compressed_blob_size := 7
        blob_prefetch_size := 5 } : BlobContext).set_blob_prefetch_size
      BuildContext.default).blob_prefetch_size = 0 :=
  (set_blob_prefetch_size_amended
    { BlobContext.new "b" 0 with
      compressed_blob_size := 7
      blob_prefetch_size := 5 }
    BuildContext.default).1 (by decide)

/-! ## C9: ArtifactWriter::finalize -/

/-- C9 (confirmed): `finalize` always flushes the buffer; with `name = None`
on SingleFile storage it removes the target exactly when it is an existing
regular file; with `name = None` on FileDir storage, or `name = Some` on
SingleFile storage, the filesystem is untouched. -/
theorem artifact_writer_finalize_spec :
    (∀ (w : ArtifactWriter) (name : Option String) (fs : FsState),
      (w.finalize name fs).1 = w.flush)
    ∧ (∀ (w : ArtifactWriter) (fs : FsState) (p : String),
      w.storage = .SingleFile p → fs.isFile p = true →
      w.finalize none fs = (w.flush, fs.remove_file p))
    ∧ (∀ (w : ArtifactWriter) (fs : FsState) (p : String),
      w.storage = .FileDir p →
      w.finalize none fs = (w.flush, fs))
    ∧ (∀ (w : ArtifactWriter) (fs : FsState) (p : String) (n : String),
      w.storage = .SingleFile p →
      w.finalize (some n) fs = (w.flush, fs)) := by
  have hflush : ∀ w : ArtifactWriter, w.flush.storage = w.storage := by
    intro w; rfl
  have hflushtmp : ∀ w : ArtifactWriter, w.flush.tmp_file = w.tmp_file := by
    intro w; rfl
  refine ⟨?_, ?_, ?_, ?_⟩
  · intro w name fs
    rcases name with _ | n
    · simp only [ArtifactWriter.finalize]
      rcases hs : w.flush.storage with p | p
      · simp only [hs]
        split <;> rfl
      · simp only [hs]
    · simp only [ArtifactWriter.finalize]
      rcases hs : w.flush.storage with p | p
      · simp only [hs]
      · simp only [hs]
        split
        · rfl
        · rcases ht : w.flush.tmp_file with _ | t <;> simp only [ht]
  · intro w fs p hs hf
    simp only [ArtifactWriter.finalize, hflush, hs, hf, if_true]
  · intro w fs p hs
    simp only [ArtifactWriter.finalize, hflush, hs]
  · intro w fs p n hs
    simp only [ArtifactWriter.finalize, hflush, hs]

/-- C9 witness: a SingleFile writer finalized with no name deletes its
regular-file target. -/
theorem artifact_writer_finalize_spec_witness :
    ({ pos := 3, buffered := [1], flushed := [2],
       storage := .SingleFile "out.blob",
       tmp_file := none } : ArtifactWriter).finalize none
        [("out.blob", FileKind.regular), ("keep", FileKind.regular)]
      = ({ pos := 3, buffered := [], flushed := [2, 1],
           storage := .SingleFile "out.blob", tmp_file := none },
         [("keep", FileKind.regular)]) := by
  have := artifact_writer_finalize_spec.2.1
    { pos := 3, buffered := [1], flushed := [2],
      storage := .SingleFile "out.blob", tmp_file := none }
    [("out.blob", FileKind.regular), ("keep", FileKind.regular)]
    "out.blob" rfl (by decide)
  simpa [ArtifactWriter.flush, FsState.remove_file] using this

/-! ## C10: get_or_create_current_blob -/

/-- C10 (counterexample): the claim fails on two reachable-shape states. A
manager whose `current_blob_index` is stale (out of the blob list's bounds)
panics instead of returning that index; a manager with no current blob but
256 blobs already present (e.g. imported from a chunk dictionary) fails
`alloc_index` and adds nothing, instead of adding one blob. -/
theorem get_or_create_current_blob_counterexample :
    ({ BlobManager.new with current_blob_index := some 5 }
        : BlobManager).get_or_create_current_blob BuildContext.default
      = .error "panic: current blob index out of bounds"
    ∧ ({ BlobManager.new with
          blobs := List.replicate 256 (BlobContext.new "" 0) }
        : BlobManager).get_or_create_current_blob BuildContext.default
      = .error "too many blobs" := by
  constructor
  · rfl
  · rw [BlobManager.get_or_create_current_blob]
    have halloc : ({ BlobManager.new with
          blobs := List.replicate 256 (BlobContext.new "" 0) }
        : BlobManager).alloc_index = .error "too many blobs" := by
      rw [BlobManager.alloc_index]
      rw [show ({ BlobManager.new with
          blobs := List.replicate 256 (BlobContext.new "" 0) }
        : BlobManager).blobs = List.replicate 256 (BlobContext.new "" 0) from rfl,
        List.length_replicate]
      rfl
    simp only [halloc]
    rfl

/-- C10 (amended): provided `current_blob_index`, when set, indexes the blob
list, `get_or_create_current_blob` is idempotent: with a current blob it
creates nothing, changes nothing and returns the current index; with no
current blob and at most 255 blobs it appends exactly one context built from
the build context, returns the pre-call blob count as its index, records it
in `current_blob_index`, and an immediate second call returns the same index
and changes nothing. -/
theorem get_or_create_current_blob_amended :
    ∀ (m : BlobManager) (ctx : BuildContext),
      (∀ i : Nat, m.current_blob_index = some i → i < m.blobs.length →
        m.get_or_create_current_blob ctx = .ok (i, m))
      ∧ (m.current_blob_index = none → m.blobs.length ≤ 255 →
        m.get_or_create_current_blob ctx
          = .ok (m.blobs.length,
              { m with
                current_blob_index := some m.blobs.length
                blobs := m.blobs ++ [BlobManager.new_blob_ctx ctx] })
        ∧ ({ m with
              current_blob_index := some m.blobs.length
              blobs := m.blobs ++ [BlobManager.new_blob_ctx ctx] }
            : BlobManager).get_or_create_current_blob ctx
          = .ok (m.blobs.length,
              { m with
                current_blob_index := some m.blobs.length
                blobs := m.blobs ++ [BlobManager.new_blob_ctx ctx] })) := by
  intro m ctx
  have hcur : ∀ (m' : BlobManager) (i : Nat), m'.current_blob_index = some i →
      i < m'.blobs.length → m'.get_or_create_current_blob ctx = .ok (i, m') := by
    intro m' i h hi
    rw [BlobManager.get_or_create_current_blob]
    simp [h, BlobManager.get_current_blob, List.getElem?_eq_getElem hi]
  constructor
  · intro i h hi
    exact hcur m i h hi
  · intro h hl
    have hmain : m.get_or_create_current_blob ctx
        = .ok (m.blobs.length,
            { m with
              current_blob_index := some m.blobs.length
              blobs := m.blobs ++ [BlobManager.new_blob_ctx ctx] }) := by
      rw [BlobManager.get_or_create_current_blob]
      simp only [h]
      rw [BlobManager.alloc_index]
      simp only [hl, if_true]
      simp [BlobManager.get_current_blob, BlobManager.add, bind, Except.bind,
        List.getElem?_concat_length]
    refine ⟨hmain, ?_⟩
    apply hcur
    · rfl
    · simp

/-- C10 witness: concrete instantiation of both branches of
`get_or_create_current_blob_amended` on a fresh manager. -/
theorem get_or_create_current_blob_amended_witness :
    BlobManager.new.get_or_create_current_blob BuildContext.default
      = .ok (0, { BlobManager.new with
                  current_blob_index := some 0
                  blobs := [BlobManager.new_blob_ctx BuildContext.default] }) := by
  have := ((get_or_create_current_blob_amended BlobManager.new
    BuildContext.default).2 rfl (by decide)).1
  simpa [BlobManager.new] using this

/-! ## C7: whiteouts-first batch order in merge -/

/-- `processNode` does not change a node's whiteout classification. -/
theorem processNode_whiteout {map : List Nat} {li : Nat} {n node : NodeM}
    (h : processNode map li n = .ok node) :
    node.whiteout_oci = n.whiteout_oci := by
  rw [processNode] at h
  rcases hf : remapChunks map n.chunks with e | cs
  all_goals rw [hf] at h
  · simp [bind, Except.bind] at h
  · simp only [bind, Except.bind] at h
    split at h
    · simp only [Except.ok.injEq] at h
      subst h
      rfl
    · cases h

/-- `processWalk` preserves the sequence of whiteout classifications. -/
theorem processWalk_whiteouts {map : List Nat} {li : Nat} :
    ∀ {ns p : List NodeM}, processWalk map li ns = .ok p →
      p.map NodeM.whiteout_oci = ns.map NodeM.whiteout_oci := by
  intro ns
  induction ns with
  | nil =>
    intro p h
    rw [processWalk] at h
    simp only [Except.ok.injEq] at h
    subst h
    rfl
  | cons n rest ih =>
    intro p h
    rw [processWalk] at h
    rcases hn : processNode map li n with e | node
    all_goals rw [hn] at h
    · simp [bind, Except.bind] at h
    · rcases hr : processWalk map li rest with e | p'
      all_goals rw [hr] at h
      · simp [bind, Except.bind] at h
      · simp only [bind, Except.bind, Except.ok.injEq] at h
        subst h
        simp [processNode_whiteout hn, ih hr]

/-- Structure of the per-layer batch: relative to any accumulator split
`A ++ B`, the walked whiteouts pile up in front of `A` (in reverse walk
order) and the walked non-whiteouts append after `B` in walk order. -/
theorem buildLayerBatch_ok (map : List Nat) (li : Nat) :
    ∀ (ns A B batch : List NodeM),
      buildLayerBatch map li ns (A ++ B) = .ok batch →
      ∃ processed, processWalk map li ns = .ok processed ∧
        batch = (processed.filter (·.whiteout_oci)).reverse ++ A
          ++ (B ++ processed.filter (fun n => ! n.whiteout_oci)) := by
  intro ns
  induction ns with
  | nil =>
    intro A B batch h
    rw [buildLayerBatch] at h
    simp only [Except.ok.injEq] at h
    exact ⟨[], rfl, by simp [h.symm]⟩
  | cons n rest ih =>
    intro A B batch h
    rw [buildLayerBatch] at h
    rcases hn : processNode map li n with e | node
    all_goals rw [hn] at h
    · simp [bind, Except.bind] at h
    · simp only [bind, Except.bind] at h
      by_cases hw : node.whiteout_oci = true
      · rw [if_pos hw] at h
        have h' : buildLayerBatch map li rest ((node :: A) ++ B) = .ok batch := by
          simpa using h
        obtain ⟨p', hp', hb⟩ := ih (node :: A) B batch h'
        refine ⟨node :: p', ?_, ?_⟩
        · rw [processWalk, hn, hp']
          rfl
        · rw [hb]
          simp [List.filter_cons, hw]
      · rw [if_neg hw] at h
        have h' : buildLayerBatch map li rest (A ++ (B ++ [node])) = .ok batch := by
          simpa using h
        obtain ⟨p', hp', hb⟩ := ih A (B ++ [node]) batch h'
        refine ⟨node :: p', ?_, ?_⟩
        · rw [processWalk, hn, hp']
          rfl
        · rw [hb]
          simp [List.filter_cons, hw]

/-- C7 (confirmed): whenever the merge applies a non-first layer to the
accumulated tree, the per-layer batch consists of all the walk's whiteout
nodes followed by all its non-whiteout nodes, the non-whiteout nodes keep
the directory-walk order, and the tree receives exactly that batch, in batch
order. -/
theorem merge_layer_whiteouts_first
    (tree : Tree) (blob_idx_map : List Nat) (layer_idx : Nat)
    (walk : List NodeM) (tree' : Tree)
    (h : applyLayerToTree tree blob_idx_map layer_idx walk = .ok tree') :
    ∃ processed batch,
      processWalk blob_idx_map layer_idx walk = .ok processed ∧
      processed.map NodeM.whiteout_oci = walk.map NodeM.whiteout_oci ∧
      buildLayerBatch blob_idx_map layer_idx walk [] = .ok batch ∧
      batch = (processed.filter (·.whiteout_oci)).reverse
        ++ processed.filter (fun n => ! n.whiteout_oci) ∧
      (∀ n ∈ (processed.filter (·.whiteout_oci)).reverse, n.whiteout_oci = true) ∧
      (∀ n ∈ processed.filter (fun n => ! n.whiteout_oci), n.whiteout_oci = false) ∧
      tree' = Tree.applyAll tree batch := by
  rw [applyLayerToTree] at h
  rcases hb : buildLayerBatch blob_idx_map layer_idx walk [] with e | batch
  all_goals rw [hb] at h
  · simp [bind, Except.bind] at h
  · simp only [bind, Except.bind, pure, Except.pure, Except.ok.injEq] at h
    obtain ⟨p, hp, hdecomp⟩ :=
      buildLayerBatch_ok blob_idx_map layer_idx walk [] [] batch (by simpa using hb)
    refine ⟨p, batch, hp, processWalk_whiteouts hp, rfl, by simpa using hdecomp,
      ?_, ?_, h.symm⟩
    · intro n hn
      rw [List.mem_reverse] at hn
      exact List.of_mem_filter hn
    · intro n hn
      have := List.of_mem_filter hn
      simpa using this

/-- C7 witness: a two-node walk (one addition, then one whiteout) applied to
a fresh tree; the whiteout ends up first in the batch. -/
theorem merge_layer_whiteouts_first_witness :
    ∃ processed batch,
      processWalk [0] 1 [nodeNW, nodeW] = .ok processed ∧
      processed.map NodeM.whiteout_oci = [nodeNW, nodeW].map NodeM.whiteout_oci ∧
      buildLayerBatch [0] 1 [nodeNW, nodeW] [] = .ok batch ∧
      batch = (processed.filter (·.whiteout_oci)).reverse
        ++ processed.filter (fun n => ! n.whiteout_oci) ∧
      (∀ n ∈ (processed.filter (·.whiteout_oci)).reverse, n.whiteout_oci = true) ∧
      (∀ n ∈ processed.filter (fun n => ! n.whiteout_oci), n.whiteout_oci = false) ∧
      Tree.apply
          (Tree.apply (Tree.from_bootstrap [])
            { nodeW with chunks := [], layer_idx := 1, overlay := .UpperAddition })
          { nodeNW with chunks := [0], layer_idx := 1, overlay := .UpperAddition }
        = Tree.applyAll (Tree.from_bootstrap []) batch :=
  merge_layer_whiteouts_first (Tree.from_bootstrap []) [0] 1 [nodeNW, nodeW] _ rfl

/-! ## C2: chunk-size mismatch aborts the merge -/

/-- Inversion for a successful `Except` bind. -/
theorem except_bind_ok {α β : Type} {e : Except String α}
    {f : α → Except String β} {b : β} (h : (e >>= f) = .ok b) :
    ∃ a, e = .ok a ∧ f a = .ok b := by
  rcases e with s | a
  · simp [Bind.bind, Except.bind] at h
  · refine ⟨a, rfl, ?_⟩
    simpa [Bind.bind, Except.bind] using h

/-- A successful chunk-size check returns the probed size and, when an
expected size was already fixed, equals it. -/
theorem checkChunkSize_ok {o : Option Nat} {c r : Nat}
    (h : checkChunkSize o c = .ok r) :
    r = c ∧ ∀ cs, o = some cs → cs = c := by
  rcases o with _ | cs
  · rw [checkChunkSize] at h
    simp only [Except.ok.injEq] at h
    exact ⟨h.symm, by intro cs hcs; cases hcs⟩
  · rw [checkChunkSize] at h
    split at h
    · simp only [Except.ok.injEq] at h
      subst h
      constructor
      · assumption
      · intro cs' hcs'
        cases hcs'
        assumption
    · cases h

/-- Once the expected chunk size is fixed at `c`, a successful blob loop run
keeps it fixed and every blob it imported had chunk size `c`. -/
theorem mergeLayerBlobs_some_chunk
    (ctx : BuildContext) (cdb : List String) (tbi : String)
    (bd : Option (List String)) (bs : Option (List Nat))
    (btd : Option (List String)) (bts : Option (List Nat)) (li : Nat) :
    ∀ (blobs : List BlobInfo) (c : Nat) (mgr : BlobManager) (pba : Bool)
      (idxmap : List Nat) (st' : Option Nat × BlobManager × Bool × List Nat),
      mergeLayerBlobs ctx cdb tbi bd bs btd bts li blobs
          (some c, mgr, pba, idxmap) = .ok st' →
      st'.1 = some c ∧ ∀ b ∈ blobs, b.chunk_size = c := by
  intro blobs
  induction blobs with
  | nil =>
    intro c mgr pba idxmap st' h
    rw [mergeLayerBlobs] at h
    simp only [Except.ok.injEq] at h
    subst h
    exact ⟨rfl, by simp⟩
  | cons blob rest ih =>
    intro c mgr pba idxmap st' h
    rw [mergeLayerBlobs] at h
    obtain ⟨cs1, hcs, h⟩ := except_bind_ok h
    obtain ⟨hc1, hc2⟩ := checkChunkSize_ok hcs
    have hcb : blob.chunk_size = c := (hc2 c rfl).symm
    have hcs1 : cs1 = c := by rw [hc1]; exact (hc2 c rfl).symm
    rw [hcs1] at h
    obtain ⟨up, hup, h⟩ := except_bind_ok h
    obtain ⟨h1, h2⟩ := ih c _ up.2 _ st' h
    refine ⟨h1, ?_⟩
    intro b hb
    rcases List.mem_cons.mp hb with rfl | hb
    · exact hcb
    · exact h2 b hb

/-- A successful blob loop run starting with no expected chunk size either
imported nothing, or fixed the size at some `c` that every imported blob
carried. -/
theorem mergeLayerBlobs_none_chunk
    (ctx : BuildContext) (cdb : List String) (tbi : String)
    (bd : Option (List String)) (bs : Option (List Nat))
    (btd : Option (List String)) (bts : Option (List Nat)) (li : Nat)
    (blobs : List BlobInfo) (mgr : BlobManager) (pba : Bool)
    (idxmap : List Nat) (st' : Option Nat × BlobManager × Bool × List Nat)
    (h : mergeLayerBlobs ctx cdb tbi bd bs btd bts li blobs
        (none, mgr, pba, idxmap) = .ok st') :
    (blobs = [] ∧ st'.1 = none)
    ∨ ∃ c, st'.1 = some c ∧ ∀ b ∈ blobs, b.chunk_size = c := by
  rcases blobs with _ | ⟨blob, rest⟩
  · left
    rw [mergeLayerBlobs] at h
    simp only [Except.ok.injEq] at h
    subst h
    exact ⟨rfl, rfl⟩
  · right
    rw [mergeLayerBlobs] at h
    obtain ⟨cs1, hcs, h⟩ := except_bind_ok h
    have hc1 : cs1 = blob.chunk_size := (checkChunkSize_ok hcs).1
    subst hc1
    obtain ⟨up, hup, h⟩ := except_bind_ok h
    obtain ⟨h1, h2⟩ := mergeLayerBlobs_some_chunk ctx cdb tbi bd bs btd bts li
      rest blob.chunk_size _ up.2 _ st' h
    refine ⟨blob.chunk_size, h1, ?_⟩
    intro b hb
    rcases List.mem_cons.mp hb with rfl | hb
    · rfl
    · exact h2 b hb

/-- Once the expected chunk size is fixed, every blob of every remaining
layer that a successful merge run imports has that chunk size. -/
theorem mergeLayers_some_chunk
    (ctx : BuildContext) (cdb : List String) (bd : Option (List String))
    (bs : Option (List Nat)) (btd : Option (List String))
    (bts : Option (List Nat)) :
    ∀ (layers : List LayerM) (li : Nat) (c : Nat) (t? : Option Tree)
      (mgr : BlobManager) (st' : Option Nat × Option Tree × BlobManager),
      mergeLayers ctx cdb bd bs btd bts li layers (some c, t?, mgr) = .ok st' →
      ∀ b ∈ (layers.map LayerM.blobs).flatten, b.chunk_size = c := by
  intro layers
  induction layers with
  | nil =>
    intro li c t? mgr st' h b hb
    simp at hb
  | cons layer rest ih =>
    intro li c t? mgr st' h b hb
    rw [mergeLayers] at h
    obtain ⟨st1, hblobs, h⟩ := except_bind_ok h
    obtain ⟨hcs1, hall⟩ := mergeLayerBlobs_some_chunk ctx cdb layer.tar_blob_id
      bd bs btd bts li layer.blobs c mgr false [] st1 hblobs
    obtain ⟨t2, _, h⟩ := except_bind_ok h
    rw [hcs1] at h
    simp only [List.map_cons, List.flatten_cons, List.mem_append] at hb
    rcases hb with hb | hb
    · exact hall b hb
    · exact ih (li + 1) c t2 st1.2.1 st' h b hb

/-- All blobs imported by a successful merge run that starts with no
expected chunk size have pairwise equal chunk sizes. -/
theorem mergeLayers_chunk_pairwise
    (ctx : BuildContext) (cdb : List String) (bd : Option (List String))
    (bs : Option (List Nat)) (btd : Option (List String))
    (bts : Option (List Nat)) :
    ∀ (layers : List LayerM) (li : Nat) (t? : Option Tree)
      (mgr : BlobManager) (st' : Option Nat × Option Tree × BlobManager),
      mergeLayers ctx cdb bd bs btd bts li layers (none, t?, mgr) = .ok st' →
      ∀ b1 ∈ (layers.map LayerM.blobs).flatten,
        ∀ b2 ∈ (layers.map LayerM.blobs).flatten,
          b1.chunk_size = b2.chunk_size := by
  intro layers
  induction layers with
  | nil =>
    intro li t? mgr st' h b1 hb1 b2 hb2
    simp at hb1
  | cons layer rest ih =>
    intro li t? mgr st' h b1 hb1 b2 hb2
    rw [mergeLayers] at h
    obtain ⟨st1, hblobs, h⟩ := except_bind_ok h
    obtain ⟨t2, _, h⟩ := except_bind_ok h
    rcases mergeLayerBlobs_none_chunk ctx cdb layer.tar_blob_id bd bs btd bts
      li layer.blobs mgr false [] st1 hblobs with ⟨hempty, hcs⟩ | ⟨c, hcs, hall⟩
    · rw [hcs] at h
      simp only [hempty, List.map_cons, List.flatten_cons, List.nil_append]
        at hb1 hb2
      exact ih (li + 1) t2 st1.2.1 st' h b1 hb1 b2 hb2
    · rw [hcs] at h
      have hrest := mergeLayers_some_chunk ctx cdb bd bs btd bts rest (li + 1)
        c t2 st1.2.1 st' h
      have hone : ∀ b ∈ ((layer :: rest).map LayerM.blobs).flatten,
          b.chunk_size = c := by
        intro b hb
        simp only [List.map_cons, List.flatten_cons, List.mem_append] at hb
        rcases hb with hb | hb
        · exact hall b hb
        · exact hrest b hb
      rw [hone b1 hb1, hone b2 hb2]

/-- C2 (confirmed): if any two blobs among those imported from the source
layer bootstraps carry different chunk sizes, `Merger::merge` returns an
error — the first imported blob fixes the expected chunk size and the first
later blob that differs trips the `ensure!` — so no `BuildOutput` is
produced. -/
theorem merge_inconsistent_chunk_size_fails
    (ctx : BuildContext) (sources : List LayerM) (bd : Option (List String))
    (bs : Option (List Nat)) (btd : Option (List String))
    (bts : Option (List Nat)) (target : ArtifactStorage)
    (chunk_dict : Option (List String)) (b1 b2 : BlobInfo)
    (h1 : b1 ∈ (sources.map LayerM.blobs).flatten)
    (h2 : b2 ∈ (sources.map LayerM.blobs).flatten)
    (hne : ¬ b1.chunk_size = b2.chunk_size) :
    ∃ e, Merger.merge ctx sources bd bs btd bts target chunk_dict
      = .error e := by
  rcases hm : Merger.merge ctx sources bd bs btd bts target chunk_dict
    with e | out
  · exact ⟨e, rfl⟩
  · exfalso
    rw [Merger.merge] at hm
    split at hm
    · exact Except.noConfusion hm
    · obtain ⟨_, _, hm⟩ := except_bind_ok hm
      obtain ⟨_, _, hm⟩ := except_bind_ok hm
      obtain ⟨_, _, hm⟩ := except_bind_ok hm
      obtain ⟨_, _, hm⟩ := except_bind_ok hm
      obtain ⟨st, hml, _⟩ := except_bind_ok hm
      exact hne (mergeLayers_chunk_pairwise ctx (chunk_dict.getD []) bd bs btd
        bts sources 0 none BlobManager.new st hml b1 h1 b2 h2)

/-- C2 witness: spec scenario S4 — two one-blob layers with chunk sizes
0x100000 and 0x80000 make the merge fail. -/
theorem merge_inconsistent_chunk_size_fails_witness :
    ∃ e, Merger.merge BuildContext.default
      [mkLayer "l1" 0x100000, mkLayer "l2" 0x80000] none none none none
      (ArtifactStorage.SingleFile "out") none = .error e :=
  merge_inconsistent_chunk_size_fails BuildContext.default
    [mkLayer "l1" 0x100000, mkLayer "l2" 0x80000] none none none none
    (ArtifactStorage.SingleFile "out") none
    (mkInfo "l1" 0 0x100000) (mkInfo "l2" 0 0x80000)
    (by simp [mkLayer]) (by simp [mkLayer]) (by decide)

/-! ## C6: allocate_available_block -/

/-- Loop exit: past the last queue nothing is allocated. -/
theorem allocFrom_stop (min_idx idx : Nat) (bc : BootstrapContext)
    (h : ¬ idx < 128) : allocFrom min_idx idx bc = (0, bc) := by
  rw [allocFrom, dif_neg h]

/-- Loop step on an empty queue: move to the next queue. -/
theorem allocFrom_empty (min_idx idx : Nat) (bc : BootstrapContext)
    (h : idx < 128) (hq : bc.v6_available_blocks.getD idx [] = []) :
    allocFrom min_idx idx bc = allocFrom min_idx (idx + 1) bc := by
  rw [allocFrom, dif_pos h, hq]

/-- Loop step on a non-empty queue: pop its head, compute the write offset,
re-enqueue the block's remaining tail. -/
theorem allocFrom_hit (min_idx idx : Nat) (bc : BootstrapContext)
    (off : Nat) (rest : List Nat) (h : idx < 128)
    (hq : bc.v6_available_blocks.getD idx [] = off :: rest) :
    allocFrom min_idx idx bc
      = (off + (EROFS_BLOCK_SIZE - idx * EROFS_INODE_SLOT_SIZE),
         BootstrapContext.append_available_block
           { bc with v6_available_blocks := bc.v6_available_blocks.set idx rest }
           (off + (EROFS_BLOCK_SIZE - idx * EROFS_INODE_SLOT_SIZE)
             + min_idx * EROFS_INODE_SLOT_SIZE)) := by
  rw [allocFrom, dif_pos h, hq]

/-- Behaviour of the scan starting at `idx`: either every queue from `idx`
up is empty and nothing is allocated, or the first non-empty queue `j` is
popped. -/
theorem allocFrom_spec (min_idx : Nat) :
    ∀ (fuel idx : Nat) (bc : BootstrapContext), fuel = 128 - idx →
      (allocFrom min_idx idx bc = (0, bc)
        ∧ ∀ i, idx ≤ i → i < 128 → bc.v6_available_blocks.getD i [] = [])
      ∨ (∃ j off rest, idx ≤ j ∧ j < 128
          ∧ bc.v6_available_blocks.getD j [] = off :: rest
          ∧ (∀ i, idx ≤ i → i < j → bc.v6_available_blocks.getD i [] = [])
          ∧ allocFrom min_idx idx bc
            = (off + (EROFS_BLOCK_SIZE - j * EROFS_INODE_SLOT_SIZE),
               BootstrapContext.append_available_block
                 { bc with v6_available_blocks :=
                     bc.v6_available_blocks.set j rest }
                 (off + (EROFS_BLOCK_SIZE - j * EROFS_INODE_SLOT_SIZE)
                   + min_idx * EROFS_INODE_SLOT_SIZE))) := by
  intro fuel
  induction fuel with
  | zero =>
    intro idx bc hf
    left
    have hidx : ¬ idx < 128 := by omega
    exact ⟨allocFrom_stop min_idx idx bc hidx, by intro i hi1 hi2; omega⟩
  | succ fuel ih =>
    intro idx bc hf
    by_cases hidx : idx < 128
    · rcases hq : bc.v6_available_blocks.getD idx [] with _ | ⟨off, rest⟩
      · rcases ih (idx + 1) bc (by omega) with ⟨heq, hempty⟩ | h
        · left
          refine ⟨by rw [allocFrom_empty min_idx idx bc hidx hq]; exact heq, ?_⟩
          intro i hi1 hi2
          rcases Nat.eq_or_lt_of_le hi1 with rfl | hi1
          · exact hq
          · exact hempty i hi1 hi2
        · right
          obtain ⟨j, off, rest, hj1, hj2, hjq, hpre, heq⟩ := h
          refine ⟨j, off, rest, by omega, hj2, hjq, ?_, ?_⟩
          · intro i hi1 hi2
            rcases Nat.eq_or_lt_of_le hi1 with rfl | hi1
            · exact hq
            · exact hpre i hi1 hi2
          · rw [allocFrom_empty min_idx idx bc hidx hq]
            exact heq
      · right
        exact ⟨idx, off, rest, Nat.le_refl idx, hidx, hq,
          by intro i hi1 hi2; omega,
          allocFrom_hit min_idx idx bc off rest hidx hq⟩
    · left
      exact ⟨allocFrom_stop min_idx idx bc hidx, by intro i hi1 hi2; omega⟩

/-- C6 (confirmed): for `s ≥ 4096` the allocator returns 0 and changes
nothing; for `s < 4096` it either returns 0 with every queue from
`ceil(s/32)` upward empty, or pops the first non-empty queue `j ≥ ceil(s/32)`
and returns an offset whose block-relative position leaves at least `s`
bytes before the next 4096-byte boundary, the new state being
`append_available_block` applied (after the pop) to the offset advanced by
the reserved `ceil(s/32)*32` bytes — which re-enqueues the block tail in the
queue of its new free-slot count, or drops it when nothing remains. The
hypotheses are the module's queue invariants: 128 queues holding
block-aligned offsets. -/
theorem allocate_available_block_spec
    (bc : BootstrapContext) (s : Nat)
    (hlen : bc.v6_available_blocks.length = 128)
    (hinv : ∀ q ∈ bc.v6_available_blocks, ∀ o ∈ q, o % EROFS_BLOCK_SIZE = 0) :
    (EROFS_BLOCK_SIZE ≤ s → bc.allocate_available_block s = (0, bc))
    ∧ (s < EROFS_BLOCK_SIZE →
        ((bc.allocate_available_block s = (0, bc)
            ∧ ∀ i, div_round_up s EROFS_INODE_SLOT_SIZE ≤ i → i < 128 →
                bc.v6_available_blocks.getD i [] = [])
          ∨ (∃ j off rest,
              div_round_up s EROFS_INODE_SLOT_SIZE ≤ j ∧ j < 128
              ∧ bc.v6_available_blocks.getD j [] = off :: rest
              ∧ (∀ i, div_round_up s EROFS_INODE_SLOT_SIZE ≤ i → i < j →
                  bc.v6_available_blocks.getD i [] = [])
              ∧ (bc.allocate_available_block s).1
                = off + (EROFS_BLOCK_SIZE - j * EROFS_INODE_SLOT_SIZE)
              ∧ s + (bc.allocate_available_block s).1 % EROFS_BLOCK_SIZE
                ≤ EROFS_BLOCK_SIZE
              ∧ (bc.allocate_available_block s).2
                = BootstrapContext.append_available_block
                    { bc with v6_available_blocks :=
                        bc.v6_available_blocks.set j rest }
                    ((bc.allocate_available_block s).1
                      + div_round_up s EROFS_INODE_SLOT_SIZE
                        * EROFS_INODE_SLOT_SIZE)))) := by
  constructor
  · intro hs
    rw [BootstrapContext.allocate_available_block, if_pos hs]
  · intro hs
    have hge : ¬ s ≥ EROFS_BLOCK_SIZE := by omega
    rw [BootstrapContext.allocate_available_block, if_neg hge]
    rcases allocFrom_spec (div_round_up s EROFS_INODE_SLOT_SIZE)
        (128 - div_round_up s EROFS_INODE_SLOT_SIZE)
        (div_round_up s EROFS_INODE_SLOT_SIZE) bc rfl with
      ⟨heq, hempty⟩ | ⟨j, off, rest, hj1, hj2, hjq, hpre, heq⟩
    · exact Or.inl ⟨heq, hempty⟩
    · right
      have hjlen : j < bc.v6_available_blocks.length := by omega
      have hgd : bc.v6_available_blocks.getD j []
          = bc.v6_available_blocks[j] := by
        rw [List.getD_eq_getElem?_getD, List.getElem?_eq_getElem hjlen]
        rfl
      have hoff : off % EROFS_BLOCK_SIZE = 0 := by
        refine hinv bc.v6_available_blocks[j] (List.getElem_mem hjlen) off ?_
        rw [← hgd, hjq]
        exact List.mem_cons_self off rest
      refine ⟨j, off, rest, hj1, hj2, hjq, hpre, by rw [heq], ?_, ?_⟩
      · rw [heq]
        dsimp only
        simp only [EROFS_BLOCK_SIZE, EROFS_INODE_SLOT_SIZE, div_round_up]
          at hj1 hoff hs ⊢
        have hlow : s ≤ (s + 32 - 1) / 32 * 32 := by omega
        omega
      · rw [heq]

set_option maxRecDepth 4096 in
/-- C6 witness: a request of one full block bypasses the queues. -/
theorem allocate_available_block_spec_witness :
    bcW.allocate_available_block 4096 = (0, bcW) :=
  (allocate_available_block_spec bcW 4096 (by simp [bcW])
    (by decide)).1 (by decide)

/-! ## C3: parent-table import followed by chunk-dict import -/

/-- A first-match index is stable under appending blobs on the right. -/
theorem firstIdxOfId_append {l : List BlobContext} {id : String} {j : Nat}
    (h : firstIdxOfId l id = some j) :
    ∀ t, firstIdxOfId (l ++ t) id = some j := by
  induction l generalizing j with
  | nil => rw [firstIdxOfId] at h; cases h
  | cons b rest ih =>
    intro t
    rw [firstIdxOfId] at h
    rw [List.cons_append, firstIdxOfId]
    split at h
    · rw [if_pos (by assumption)]
      exact h
    · rw [if_neg (by assumption)]
      rcases ho : firstIdxOfId rest id with _ | j'
      · rw [ho] at h; cases h
      · rw [ho] at h
        simp only [Option.map_some', Option.some.injEq] at h
        rw [ih ho t]
        simp [h]

/-- No match means the id is absent. -/
theorem firstIdxOfId_none {l : List BlobContext} {id : String}
    (h : firstIdxOfId l id = none) : id ∉ l.map BlobContext.blob_id := by
  induction l with
  | nil => simp
  | cons b rest ih =>
    rw [firstIdxOfId] at h
    split at h
    · cases h
    · have hrest : firstIdxOfId rest id = none := by
        rcases ho : firstIdxOfId rest id with _ | j'
        · rfl
        · rw [ho] at h; cases h
      simp only [List.map_cons, List.mem_cons]
      rintro (rfl | hmem)
      · exact absurd rfl (by assumption)
      · exact ih hrest hmem

/-- Appending one blob to a list with no match: the new blob is found at the
old length exactly when its id matches. -/
theorem firstIdxOfId_append_none {l : List BlobContext} {id : String}
    (h : firstIdxOfId l id = none) (b : BlobContext) :
    firstIdxOfId (l ++ [b]) id
      = if b.blob_id = id then some l.length else none := by
  induction l with
  | nil =>
    rw [List.nil_append, firstIdxOfId]
    rw [firstIdxOfId]
    split
    · rfl
    · rfl
  | cons a rest ih =>
    rw [firstIdxOfId] at h
    split at h
    · cases h
    · rw [List.cons_append, firstIdxOfId, if_neg (by assumption)]
      have hrest : firstIdxOfId rest id = none := by
        rcases ho : firstIdxOfId rest id with _ | j'
        · rfl
        · rw [ho] at h; cases h
      rw [ih hrest]
      by_cases hb : b.blob_id = id
      · rw [if_pos hb, if_pos hb]
        rfl
      · rw [if_neg hb, if_neg hb]
        rfl

/-- A found index points at the id. -/
theorem firstIdxOfId_getElem {l : List BlobContext} {id : String} {j : Nat}
    (h : firstIdxOfId l id = some j) :
    (l.map BlobContext.blob_id)[j]? = some id := by
  induction l generalizing j with
  | nil => rw [firstIdxOfId] at h; cases h
  | cons b rest ih =>
    rw [firstIdxOfId] at h
    split at h
    · simp only [Option.some.injEq] at h
      subst h
      simp only [List.map_cons, List.getElem?_cons_zero, Option.some.injEq]
      assumption
    · rcases ho : firstIdxOfId rest id with _ | j'
      · rw [ho] at h; cases h
      · rw [ho] at h
        simp only [Option.map_some', Option.some.injEq] at h
        subst h
        simpa using ih ho

/-- `alloc_index` succeeds exactly on the next dense index below 256. -/
theorem alloc_index_ok {m : BlobManager} {i : Nat}
    (h : m.alloc_index = .ok i) : i = m.blobs.length ∧ m.blobs.length ≤ 255 := by
  rw [BlobManager.alloc_index] at h
  split at h
  · simp only [Except.ok.injEq] at h
    exact ⟨h.symm, by assumption⟩
  · cases h

/-- Invariant of the chunk-dict import fold: the existing blobs stay a
prefix, ids stay distinct, every dictionary blob ends up findable with its
internal-to-real mapping recorded, earlier mappings persist, and the 256
bound is preserved. -/
theorem extendFromChunkDictGo_spec :
    ∀ (ds : List BlobInfo) (m m' : BlobManager),
      extendFromChunkDictGo ds m = .ok m' →
      (∃ suffix, m'.blobs = m.blobs ++ suffix
        ∧ ∀ b ∈ suffix, b.blob_id ∈ ds.map BlobInfo.blob_id)
      ∧ ((m.blobs.map BlobContext.blob_id).Nodup →
          (m'.blobs.map BlobContext.blob_id).Nodup)
      ∧ (∀ d ∈ ds, ∃ j, firstIdxOfId m'.blobs d.blob_id = some j
          ∧ (d.blob_index, j) ∈ m'.dict_real_idx)
      ∧ (∀ p ∈ m.dict_real_idx, p ∈ m'.dict_real_idx)
      ∧ (m.blobs.length ≤ 256 → m'.blobs.length ≤ 256) := by
  intro ds
  induction ds with
  | nil =>
    intro m m' h
    rw [extendFromChunkDictGo] at h
    simp only [Except.ok.injEq] at h
    subst h
    exact ⟨⟨[], by simp, by simp⟩, fun hn => hn, by simp, fun p hp => hp,
      fun hl => hl⟩
  | cons d rest ih =>
    intro m m' h
    rw [extendFromChunkDictGo] at h
    rcases hfind : m.get_blob_idx_by_id d.blob_id with _ | j
    · -- not found: allocate a fresh index and add the dictionary blob
      rw [hfind] at h
      obtain ⟨idx, halloc, h⟩ := except_bind_ok h
      obtain ⟨hidx, hbound⟩ := alloc_index_ok halloc
      obtain ⟨⟨suffix, hsfx, hsfxids⟩, hnodup1, hdict1, hsup1, hlen1⟩ :=
        ih _ m' h
      have hctxid : (BlobContext.fromBlobInfo d .Dict).blob_id = d.blob_id :=
        rfl
      refine ⟨⟨BlobContext.fromBlobInfo d .Dict :: suffix, ?_, ?_⟩, ?_, ?_,
        ?_, ?_⟩
      · rw [hsfx]
        simp [BlobManager.add]
      · intro b hb
        rcases List.mem_cons.mp hb with rfl | hb
        · simp [hctxid]
        · simp only [List.map_cons, List.mem_cons]
          exact Or.inr (hsfxids b hb)
      · intro hn
        apply hnodup1
        simp only [BlobManager.add, List.map_append, List.map_cons,
          List.map_nil]
        rw [List.nodup_append]
        refine ⟨hn, by simp, ?_⟩
        simp only [List.disjoint_singleton]
        rw [hctxid]
        exact firstIdxOfId_none hfind
      · intro d' hd'
        rcases List.mem_cons.mp hd' with rfl | hd'
        · refine ⟨idx, ?_, ?_⟩
          · have hbase : firstIdxOfId (m.blobs ++ [BlobContext.fromBlobInfo d' .Dict])
                d'.blob_id = some m.blobs.length := by
              rw [firstIdxOfId_append_none hfind, if_pos hctxid]
            have := firstIdxOfId_append hbase suffix
            rw [hsfx]
            simp only [BlobManager.add] at this ⊢
            rw [hidx]
            exact this
          · apply hsup1
            simp [hidx]
        · exact hdict1 d' hd'
      · intro p hp
        apply hsup1
        simp only [List.mem_cons]
        exact Or.inr hp
      · intro hl
        apply hlen1
        simp only [BlobManager.add, List.length_append, List.length_cons,
          List.length_nil]
        omega
    · -- found: only record the mapping
      rw [hfind] at h
      obtain ⟨⟨suffix, hsfx, hsfxids⟩, hnodup1, hdict1, hsup1, hlen1⟩ :=
        ih _ m' h
      refine ⟨⟨suffix, hsfx, ?_⟩, hnodup1, ?_, ?_, hlen1⟩
      · intro b hb
        simp only [List.map_cons, List.mem_cons]
        exact Or.inr (hsfxids b hb)
      · intro d' hd'
        rcases List.mem_cons.mp hd' with rfl | hd'
        · refine ⟨j, ?_, ?_⟩
          · rw [hsfx]
            exact firstIdxOfId_append hfind suffix
          · apply hsup1
            simp
        · exact hdict1 d' hd'
      · intro p hp
        apply hsup1
        simp only [List.mem_cons]
        exact Or.inr hp

/-- Parent import preserves blob ids positionally. -/
theorem map_fromBlobInfo_blob_id (T : List BlobInfo) (src : ChunkSource) :
    (T.map (fun b => BlobContext.fromBlobInfo b src)).map BlobContext.blob_id
      = T.map BlobInfo.blob_id := by
  induction T with
  | nil => rfl
  | cons b rest ih =>
    simp only [List.map_cons, List.cons.injEq]
    exact ⟨rfl, ih⟩

set_option maxRecDepth 1000000 in
/-- C3 (counterexample): the claim fails for general T. With the duplicated
parent table `[A, A]` the id `a` ends up twice in the manager; with a
257-entry parent table of distinct ids — which `extend_from_blob_table`
accepts, since only `alloc_index` enforces the 8-bit bound — the last id
sits at index 256 > 255. -/
theorem extend_parent_dict_counterexample :
    extendBoth [infoA, infoA] []
      = .ok { blobs := [BlobContext.fromBlobInfo infoA .Parent,
                        BlobContext.fromBlobInfo infoA .Parent],
              current_blob_index := none,
              global_chunk_dict := [],
              dict_real_idx := [] }
    ∧ ¬ (([BlobContext.fromBlobInfo infoA .Parent,
           BlobContext.fromBlobInfo infoA .Parent].map
            BlobContext.blob_id).count "a" = 1)
    ∧ (∃ m, extendBoth
          ((List.range 257).map (fun i => mkInfo (toString i) i 0x100000)) []
          = .ok m
        ∧ m.get_blob_idx_by_id "256" = some 256
        ∧ ¬ 256 ≤ 255) := by
  refine ⟨rfl, by decide, ⟨_, rfl, ?_, by decide⟩⟩
  rfl

/-- C3 (amended): provided the parent table T has pairwise-distinct blob ids
and at most 256 entries, after `extend_from_blob_table T` on an empty
manager followed by `extend_from_chunk_dict` with dictionary D, every blob
id of T or D occurs exactly once in the manager, at an index of at most 255;
T's imported contexts occupy the lowest indices in T's order; and every
dictionary blob's internal index is mapped via `set_real_blob_idx` to that
blob's real index in the manager. -/
theorem extend_parent_dict_amended
    (T D : List BlobInfo) (m : BlobManager)
    (hnodup : (T.map BlobInfo.blob_id).Nodup)
    (hlenT : T.length ≤ 256)
    (h : extendBoth T D = .ok m) :
    (∀ id : String,
      id ∈ T.map BlobInfo.blob_id ∨ id ∈ D.map BlobInfo.blob_id →
      (m.blobs.map BlobContext.blob_id).count id = 1
      ∧ ∃ j, j ≤ 255 ∧ (m.blobs.map BlobContext.blob_id)[j]? = some id)
    ∧ (∀ i, i < T.length →
        m.blobs[i]?
          = (T[i]?).map (fun b => BlobContext.fromBlobInfo b .Parent))
    ∧ m.blobs.length ≤ 256
    ∧ (∀ d ∈ D, ∃ j, m.get_blob_idx_by_id d.blob_id = some j
        ∧ (d.blob_index, j) ∈ m.dict_real_idx) := by
  rw [extendBoth] at h
  obtain ⟨m0, hext, hdict⟩ := except_bind_ok h
  have hm0 : ({ blobs := T.map (fun b => BlobContext.fromBlobInfo b .Parent),
                current_blob_index := none,
                global_chunk_dict := D,
                dict_real_idx := [] } : BlobManager) = m0 := by
    injection hext
  subst hm0
  have hgo : extendFromChunkDictGo D
      { blobs := T.map (fun b => BlobContext.fromBlobInfo b .Parent),
        current_blob_index := none,
        global_chunk_dict := D,
        dict_real_idx := [] } = .ok m := hdict
  obtain ⟨⟨suffix, hsfx0, hsfxids⟩, hnodup', hdictmap, _, hlen'⟩ :=
    extendFromChunkDictGo_spec D _ m hgo
  have hsfx : m.blobs
      = T.map (fun b => BlobContext.fromBlobInfo b .Parent) ++ suffix := hsfx0
  have hnodupfinal : (m.blobs.map BlobContext.blob_id).Nodup := by
    apply hnodup'
    have : ((T.map (fun b => BlobContext.fromBlobInfo b .Parent)).map
        BlobContext.blob_id).Nodup := by
      rw [map_fromBlobInfo_blob_id]
      exact hnodup
    exact this
  have hlenfinal : m.blobs.length ≤ 256 := by
    apply hlen'
    simpa using hlenT
  refine ⟨?_, ?_, hlenfinal, ?_⟩
  · intro id hid
    have hmem : id ∈ m.blobs.map BlobContext.blob_id := by
      rcases hid with hid | hid
      · rw [hsfx]
        simp only [List.map_append, List.mem_append]
        left
        rw [map_fromBlobInfo_blob_id]
        exact hid
      · obtain ⟨d, hd, rfl⟩ := List.mem_map.mp hid
        obtain ⟨j, hj, _⟩ := hdictmap d hd
        have hje := firstIdxOfId_getElem hj
        obtain ⟨hlt, heq⟩ := List.getElem?_eq_some.mp hje
        rw [← heq]
        exact List.getElem_mem hlt
    refine ⟨List.count_eq_one_of_mem hnodupfinal hmem, ?_⟩
    obtain ⟨j, hjlt, hjeq⟩ := List.getElem_of_mem hmem
    refine ⟨j, ?_, ?_⟩
    · have hml : (m.blobs.map BlobContext.blob_id).length = m.blobs.length :=
        List.length_map m.blobs BlobContext.blob_id
      omega
    · rw [List.getElem?_eq_getElem hjlt, hjeq]
  · intro i hi
    have hilt : i < (T.map (fun b => BlobContext.fromBlobInfo b .Parent)).length := by
      simpa using hi
    rw [hsfx, List.getElem?_append_left hilt, List.getElem?_map]
  · intro d hd
    obtain ⟨j, hj, hpair⟩ := hdictmap d hd
    exact ⟨j, hj, hpair⟩

/-- C3 witness: spec scenario S6 — parent table [A, B], dictionary [B, C]:
the blob list becomes [A, B, C], the dictionary maps B's internal index 0 to
real index 1 and C's internal index 1 to real index 2, and the amended
properties hold at that state. -/
theorem extend_parent_dict_amended_witness :
    extendBoth [infoA, infoB] [infoB, infoC]
      = .ok { blobs := [BlobContext.fromBlobInfo infoA .Parent,
                        BlobContext.fromBlobInfo infoB .Parent,
                        BlobContext.fromBlobInfo infoC .Dict],
              current_blob_index := none,
              global_chunk_dict := [infoB, infoC],
              dict_real_idx := [(1, 2), (0, 1)] }
    ∧ ((∀ id : String,
        id ∈ [infoA, infoB].map BlobInfo.blob_id
          ∨ id ∈ [infoB, infoC].map BlobInfo.blob_id →
        (({ blobs := [BlobContext.fromBlobInfo infoA .Parent,
                      BlobContext.fromBlobInfo infoB .Parent,
                      BlobContext.fromBlobInfo infoC .Dict],
            current_blob_index := none,
            global_chunk_dict := [infoB, infoC],
            dict_real_idx := [(1, 2), (0, 1)] } : BlobManager).blobs.map
              BlobContext.blob_id).count id = 1
        ∧ ∃ j, j ≤ 255
            ∧ (({ blobs := [BlobContext.fromBlobInfo infoA .Parent,
                            BlobContext.fromBlobInfo infoB .Parent,
                            BlobContext.fromBlobInfo infoC .Dict],
                  current_blob_index := none,
                  global_chunk_dict := [infoB, infoC],
                  dict_real_idx := [(1, 2), (0, 1)] } : BlobManager).blobs.map
                    BlobContext.blob_id)[j]? = some id)
      ∧ (∀ i, i < ([infoA, infoB] : List BlobInfo).length →
          (({ blobs := [BlobContext.fromBlobInfo infoA .Parent,
                        BlobContext.fromBlobInfo infoB .Parent,
                        BlobContext.fromBlobInfo infoC .Dict],
              current_blob_index := none,
              global_chunk_dict := [infoB, infoC],
              dict_real_idx := [(1, 2), (0, 1)] } : BlobManager).blobs)[i]?
            = (([infoA, infoB] : List BlobInfo)[i]?).map
                (fun b => BlobContext.fromBlobInfo b .Parent))
      ∧ ({ blobs := [BlobContext.fromBlobInfo infoA .Parent,
                     BlobContext.fromBlobInfo infoB .Parent,
                     BlobContext.fromBlobInfo infoC .Dict],
           current_blob_index := none,
           global_chunk_dict := [infoB, infoC],
           dict_real_idx := [(1, 2), (0, 1)] } : BlobManager).blobs.length
          ≤ 256
      ∧ (∀ d ∈ ([infoB, infoC] : List BlobInfo),
          ∃ j, ({ blobs := [BlobContext.fromBlobInfo infoA .Parent,
                            BlobContext.fromBlobInfo infoB .Parent,
                            BlobContext.fromBlobInfo infoC .Dict],
                  current_blob_index := none,
                  global_chunk_dict := [infoB, infoC],
                  dict_real_idx := [(1, 2), (0, 1)] }
                  : BlobManager).get_blob_idx_by_id d.blob_id = some j
            ∧ (d.blob_index, j)
              ∈ ({ blobs := [BlobContext.fromBlobInfo infoA .Parent,
                             BlobContext.fromBlobInfo infoB .Parent,
                             BlobContext.fromBlobInfo infoC .Dict],
                   current_blob_index := none,
                   global_chunk_dict := [infoB, infoC],
                   dict_real_idx := [(1, 2), (0, 1)] }
                   : BlobManager).dict_real_idx)) :=
  ⟨rfl,
   extend_parent_dict_amended [infoA, infoB] [infoB, infoC] _
     (by decide) (by decide) rfl⟩

end Nydus
